import Mathlib

/-!
Verification development for the Baitoru scraping pipeline
(src/baitoru_scraper.py and src/fetch_info_baitoru.py).

The two Python modules are shallowly embedded below: pure string and
tree functions become Lean functions, the retrying HTTP fetchers become
functions over an oracle giving the outcome of each GET call, and the
crawl loop becomes a fuel-indexed recursion over an environment that
maps a URL to its fetched-and-parsed document.  Library collaborators
(urllib.parse, the csv writer, BeautifulSoup) are modelled by Lean
functions that follow the CPython / BeautifulSoup semantics for the
constructs the two modules use.
-/

namespace Baitoru

abbrev Chars := List Char

/-- ASCII lower-casing of one character, as Python str.lower does on the
ASCII range (the only range the embedded code feeds it). -/
def asciiLower (c : Char) : Char :=
  if 'A' ≤ c ∧ c ≤ 'Z' then Char.ofNat (c.toNat + 32) else c

def lowerList (s : Chars) : Chars := s.map asciiLower

/-- Split a list at the first occurrence of a separator, like
str.split(sep, 1); none when the separator does not occur. -/
def splitFirst (sep : Char) : Chars → Option (Chars × Chars)
  | [] => none
  | c :: cs =>
    if c = sep then some ([], cs)
    else match splitFirst sep cs with
      | some (a, b) => some (c :: a, b)
      | none => none

/-- Case-insensitive literal strip: the pattern (already lower-case) is
removed from the front of the subject, comparing ASCII-lowered subject
characters; none when the subject does not start with the pattern. -/
def ciStrip : Chars → Chars → Option Chars
  | [], s => some s
  | _ :: _, [] => none
  | p :: ps, c :: cs => if asciiLower c = p then ciStrip ps cs else none

end Baitoru

namespace UrllibParse

/-! Model of the parts of urllib.parse used by the two modules:
urlsplit (the code never reads the params component, so urlparse and
urlsplit coincide for it — the params split only touches a suffix of the
last path segment, which cannot change any of the pattern searches the
code performs on the path), urlunsplit and urljoin, following the
CPython implementation. -/

open Baitoru

structure UrlParts where
  scheme : String
  netloc : String
  path : String
  query : String
  fragment : String
deriving DecidableEq, Repr

def isSchemeChar (c : Char) : Bool :=
  c.isAlpha ∨ c.isDigit ∨ c = '+' ∨ c = '-' ∨ c = '.'

/-- The characters urlsplit removes everywhere (tab, CR, LF). -/
def isUnsafeUrlChar (c : Char) : Bool := c = '\t' ∨ c = '\r' ∨ c = '\n'

/-- WHATWG C0-control-or-space, stripped from the front of a URL. -/
def isC0OrSpace (c : Char) : Bool := c.toNat ≤ 0x20

def netlocDelims : Chars := ['/', '?', '#']

/-- urlsplit with a default scheme (params are not modelled, see above). -/
def urlsplitD (defaultScheme : String) (url0 : String) : UrlParts :=
  let url1 := (url0.data.dropWhile isC0OrSpace).filter (fun c => ¬ isUnsafeUrlChar c)
  let (scheme, rest) :=
    match splitFirst ':' url1 with
    | some (pre, post) =>
      if pre ≠ [] ∧ (pre.head?.map (fun c : Char => c.isAlpha && decide (c.toNat < 128))).getD false = true
          ∧ pre.all isSchemeChar
      then (String.mk (lowerList pre), post)
      else (defaultScheme, url1)
    | none => (defaultScheme, url1)
  let (netloc, rest) :=
    if rest.take 2 = ['/', '/'] then
      let after := rest.drop 2
      (after.takeWhile (fun c => ¬ c ∈ netlocDelims),
       after.dropWhile (fun c => ¬ c ∈ netlocDelims))
    else ([], rest)
  let (rest, fragment) :=
    match splitFirst '#' rest with
    | some (a, b) => (a, b)
    | none => (rest, [])
  let (path, query) :=
    match splitFirst '?' rest with
    | some (a, b) => (a, b)
    | none => (rest, [])
  ⟨scheme, String.mk netloc, String.mk path, String.mk query, String.mk fragment⟩

def urlparse (url : String) : UrlParts := urlsplitD "" url

def urlunsplit (p : UrlParts) : String :=
  let url := p.path.data
  let url :=
    if p.netloc.data ≠ [] ∨ (url ≠ [] ∧ url.take 2 = ['/', '/']) then
      '/' :: '/' :: p.netloc.data ++
        (if url ≠ [] ∧ url.head? ≠ some '/' then '/' :: url else url)
    else url
  let url := if p.scheme ≠ "" then p.scheme.data ++ ':' :: url else url
  let url := if p.query ≠ "" then url ++ '?' :: p.query.data else url
  let url := if p.fragment ≠ "" then url ++ '#' :: p.fragment.data else url
  String.mk url

def usesRelative : List String :=
  ["", "ftp", "http", "gopher", "nntp", "imap", "wais", "file", "https",
   "shttp", "mms", "prospero", "rtsp", "rtspu", "sftp", "svn", "svn+ssh",
   "ws", "wss"]

def usesNetloc : List String :=
  ["", "ftp", "http", "gopher", "nntp", "telnet", "imap", "wais", "file",
   "mms", "https", "shttp", "snews", "prospero", "rtsp", "rtspu", "rsync",
   "svn", "svn+ssh", "sftp", "nfs", "git", "git+ssh", "ws", "wss",
   "itms-services"]

/-- The dot-segment resolution loop of urljoin: ".." pops (only when the
accumulated path has at least two segments), "." is skipped, anything
else is appended.  The accumulator is kept reversed. -/
def resolveSegs : List Chars → List Chars → List Chars
  | acc, [] => acc.reverse
  | acc, seg :: rest =>
    if seg = ['.', '.'] then
      resolveSegs (if 2 ≤ acc.length then acc.tail else acc) rest
    else if seg = ['.'] then resolveSegs acc rest
    else resolveSegs (seg :: acc) rest

/-- segments[1:-1] = filter(None, segments[1:-1]) -/
def filterMiddle (l : List Chars) : List Chars :=
  match l with
  | [] => []
  | [a] => [a]
  | a :: rest => a :: ((rest.dropLast.filter (· ≠ [])) ++ [rest.getLast!])

def joinSlash (segs : List Chars) : Chars :=
  match segs with
  | [] => []
  | [a] => a
  | a :: rest => a ++ '/' :: joinSlash rest

def urljoin (base url : String) : String :=
  if base = "" then url
  else if url = "" then base
  else
    let b := urlsplitD "" base
    let u := urlsplitD b.scheme url
    if u.scheme ≠ b.scheme ∨ ¬ u.scheme ∈ usesRelative then url
    else
      let inNetloc := u.scheme ∈ usesNetloc
      if inNetloc ∧ u.netloc ≠ "" then urlunsplit u
      else
        let netloc := if inNetloc then b.netloc else u.netloc
        if u.path = "" then
          let query := if u.query = "" then b.query else u.query
          urlunsplit ⟨u.scheme, netloc, b.path, query, u.fragment⟩
        else
          let baseParts0 := b.path.data.splitOn '/'
          let baseParts :=
            if baseParts0.getLast? ≠ some [] then baseParts0.dropLast
            else baseParts0
          let segments :=
            if u.path.data.head? = some '/' then u.path.data.splitOn '/'
            else filterMiddle (baseParts ++ u.path.data.splitOn '/')
          let resolved := resolveSegs [] segments
          let resolved :=
            if segments.getLast? = some ['.'] ∨ segments.getLast? = some ['.', '.']
            then resolved ++ [[]] else resolved
          let pathStr := joinSlash resolved
          let pathStr := if pathStr = [] then ['/'] else pathStr
          urlunsplit ⟨u.scheme, netloc, String.mk pathStr, u.query, u.fragment⟩

end UrllibParse

namespace Baitoru

/-! ### The regular expressions of fetch_info_baitoru.py

CJLIST_RE = /cjlist(\d+)/ (IGNORECASE): a literal "/cjlist", one or more
digits (modelled as ASCII digits), a literal "/".  Because the digit run
is maximal and must be followed by "/", regex backtracking never changes
the outcome, so a takeWhile faithfully captures the group.
JOB_DETAIL_RE = /job[0-9]+|/jobview/|/detail/ (IGNORECASE). -/

def cjlistMatchAt (s : Chars) : Option Chars :=
  match ciStrip "/cjlist".data s with
  | none => none
  | some rest =>
    let ds := rest.takeWhile Char.isDigit
    if ds ≠ [] ∧ (rest.drop ds.length).head? = some '/' then some ds else none

/-- re.search for CJLIST_RE: the leftmost match, returning the captured
digit group. -/
def cjlistSearch : Chars → Option Chars
  | [] => none
  | c :: cs =>
    match cjlistMatchAt (c :: cs) with
    | some ds => some ds
    | none => cjlistSearch cs

def cjlistSearchStr (s : String) : Option String :=
  (cjlistSearch s.data).map String.mk

def jobDetailAt (s : Chars) : Bool :=
  (match ciStrip "/job".data s with
   | some rest => (rest.head?.map Char.isDigit).getD false
   | none => false)
  || (ciStrip "/jobview/".data s).isSome
  || (ciStrip "/detail/".data s).isSome

/-- re.search for JOB_DETAIL_RE used only as a truth test. -/
def jobDetailSearch (s : Chars) : Bool :=
  match s with
  | [] => false
  | _ :: cs => jobDetailAt s || jobDetailSearch cs

/-! ### The HTML document model

BeautifulSoup parse trees are modelled by a tree of elements (tag,
attributes, children) and text nodes.  Attribute lookup takes the first
binding of a name.  The find and select operations the two modules use
are modelled with BeautifulSoup semantics: document-order (preorder)
traversal over descendants. -/

inductive Node where
  | text (s : String)
  | elem (tag : String) (attrs : List (String × String)) (children : List Node)

def getAttr (attrs : List (String × String)) (name : String) : Option String :=
  (attrs.find? (fun p => p.1 = name)).map (·.2)

def Node.childrenOf : Node → List Node
  | .text _ => []
  | .elem _ _ cs => cs

/-- Splitting a character list at whitespace into its non-empty words
(str.split with no argument). -/
def wordsSplit (s : Chars) : List Chars :=
  (s.foldr
    (fun c acc =>
      if c.isWhitespace then [] :: acc
      else
        match acc with
        | [] => [[c]]
        | w :: ws => (c :: w) :: ws)
    []).filter (· ≠ [])

/-- Whitespace-separated words of an attribute value (a multi-valued
attribute such as class or rel is stored space-separated). -/
def attrWords (v : String) : List String :=
  (wordsSplit v.data).map String.mk

def hasWordAttr (attrs : List (String × String)) (name word : String) : Bool :=
  match getAttr attrs name with
  | some v => word ∈ attrWords v
  | none => false

/-- Element .string in the BeautifulSoup sense: a single text child, or
the .string of a single element child; none otherwise. -/
def nodeString : Node → Option String
  | .text s => some s
  | .elem _ _ [c] => nodeString c
  | .elem _ _ _ => none

mutual
/-- All href values of anchors in the subtree below a node (the node
itself included when it is an anchor with an href), in document order:
soup.find_all over a whole document visits every element this way. -/
def anchorHrefs : Node → List String
  | .text _ => []
  | .elem tag attrs children =>
    (match if tag = "a" then getAttr attrs "href" else none with
     | some h => [h]
     | none => []) ++ anchorHrefsList children

def anchorHrefsList : List Node → List String
  | [] => []
  | n :: rest => anchorHrefs n ++ anchorHrefsList rest
end

mutual
/-- li.find with tag "a" and href required: the href of the first anchor
descendant carrying an href attribute, in document order. -/
def findAnchorHref : Node → Option String
  | .text _ => none
  | .elem tag attrs children =>
    match if tag = "a" then getAttr attrs "href" else none with
    | some h => some h
    | none => findAnchorHrefList children

def findAnchorHrefList : List Node → Option String
  | [] => none
  | n :: rest =>
    match findAnchorHref n with
    | some h => some h
    | none => findAnchorHrefList rest
end

mutual
/-- soup.select in document order for the selector "ul.ul01 li.li01":
every li element with class li01 having a ul ancestor with class ul01.
The flag records whether such an ancestor encloses the current node. -/
def selectLi01 (inUl : Bool) : Node → List Node
  | .text _ => []
  | .elem tag attrs children =>
    let here :=
      if inUl ∧ tag = "li" ∧ hasWordAttr attrs "class" "li01"
      then [Node.elem tag attrs children] else []
    let inUl2 := inUl ∨ (tag = "ul" ∧ hasWordAttr attrs "class" "ul01")
    here ++ selectLi01List inUl2 children

def selectLi01List (inUl : Bool) : List Node → List Node
  | [] => []
  | n :: rest => selectLi01 inUl n ++ selectLi01List inUl rest
end

def startsWithChars : Chars → Chars → Bool
  | [], _ => true
  | _ :: _, [] => false
  | a :: as, b :: bs => a = b && startsWithChars as bs

/-- The Python containment test needle in hay on strings. -/
def containsSub (needle hay : String) : Bool :=
  go needle.data hay.data
where
  go (n : Chars) : Chars → Bool
    | [] => startsWithChars n []
    | c :: cs => startsWithChars n (c :: cs) || go n cs

mutual
/-- soup.find of the first anchor, in document order, whose .string
satisfies the given test and which has an href attribute. -/
def findAnchorByString (test : String → Bool) : Node → Option String
  | .text _ => none
  | .elem tag attrs children =>
    let strOk : Bool :=
      match nodeString (.elem tag attrs children) with
      | some s => test s
      | none => false
    if tag = "a" ∧ strOk ∧ (getAttr attrs "href").isSome
    then getAttr attrs "href"
    else findAnchorByStringList test children

def findAnchorByStringList (test : String → Bool) : List Node → Option String
  | [] => none
  | n :: rest =>
    match findAnchorByString test n with
    | some h => some h
    | none => findAnchorByStringList test rest
end

mutual
/-- soup.find of the first anchor, in document order, whose .string
satisfies the given test, without requiring an href; returns the
attributes of the anchor so that a.get can then be applied. -/
def findAnchorText (test : String → Bool) : Node → Option (List (String × String))
  | .text _ => none
  | .elem tag attrs children =>
    let strOk : Bool :=
      match nodeString (.elem tag attrs children) with
      | some s => test s
      | none => false
    if tag = "a" ∧ strOk then some attrs
    else findAnchorTextList test children

def findAnchorTextList (test : String → Bool) : List Node → Option (List (String × String))
  | [] => none
  | n :: rest =>
    match findAnchorText test n with
    | some a => some a
    | none => findAnchorTextList test rest
end

mutual
/-- soup.find of the first anchor whose rel attribute contains the word
"next" (rel is multi-valued); returns its attributes so that a.get can
then be applied.  BeautifulSoup considers the element found whether or
not it carries an href. -/
def findRelNext : Node → Option (List (String × String))
  | .text _ => none
  | .elem tag attrs children =>
    if tag = "a" ∧ hasWordAttr attrs "rel" "next" then some attrs
    else findRelNextList children

def findRelNextList : List Node → Option (List (String × String))
  | [] => none
  | n :: rest =>
    match findRelNext n with
    | some a => some a
    | none => findRelNextList rest
end

end Baitoru

namespace Baitoru

/-! ### The two fetch_html variants

A network oracle gives the outcome of each GET call by its index: a
response with a status code and a body, or a transport-level failure
(connection error or timeout, a requests.RequestException).  Sleeps are
not performed but accumulated in seconds (every sleep the code performs
has an integral number of seconds: BASE_BACKOFF_SEC is 3, respectively
3.0, and the multiplier is the attempt index). -/

inductive CallOutcome where
  | resp (status : Nat) (body : String)
  | transportExc
deriving DecidableEq, Repr

/-- The kinds of requests.RequestException the embedded code can see:
a transport failure, or the requests.HTTPError that
Response.raise_for_status raises on a 4xx or 5xx status.  HTTPError is a
subclass of RequestException, so both are caught by the same handler. -/
inductive ReqException where
  | transport
  | httpError (status : Nat)
deriving DecidableEq, Repr

/-- Response.raise_for_status: raises HTTPError exactly when the status
code lies in 400..599; other statuses (2xx but also 1xx and 3xx) pass. -/
def raiseForStatus (status : Nat) : Option ReqException :=
  if 400 ≤ status ∧ status < 600 then some (.httpError status) else none

/-- The result of baitoru_scraper.fetch_html: the returned text, or the
exception the final raise statement propagates to the caller. -/
inductive ScraperResult where
  | ok (text : String)
  | raised (lastExc : Option ReqException)
deriving DecidableEq, Repr

def MAX_RETRIES : Nat := 3
def BASE_BACKOFF_SEC : Nat := 3

/-- The loop of baitoru_scraper.fetch_html, accumulating the attempt
count and the total seconds slept.  The first argument is the number of
loop iterations left (max_retries - i for the attempt index i, so the
loop guard i < max_retries becomes the zero pattern).  A response is
returned when raise_for_status passes; every caught RequestException
(transport failure or HTTPError) updates last_exc and, except after the
final attempt (i < max_retries - 1), sleeps BASE_BACKOFF_SEC * (i + 1);
when the loop ends the last exception is raised. -/
def scraperFetchLoop (oracle : Nat → CallOutcome) (maxRetries : Nat) :
    Nat → Nat → Option ReqException → Nat → Nat → ScraperResult × Nat × Nat
  | 0, _i, lastExc, attempts, slept => (.raised lastExc, attempts, slept)
  | left + 1, i, _lastExc, attempts, slept =>
    match oracle i with
    | .resp st body =>
      match raiseForStatus st with
      | none => (.ok body, attempts + 1, slept)
      | some e =>
        let slept2 :=
          if i < maxRetries - 1 then slept + BASE_BACKOFF_SEC * (i + 1) else slept
        scraperFetchLoop oracle maxRetries left (i + 1) (some e) (attempts + 1) slept2
    | .transportExc =>
      let slept2 :=
        if i < maxRetries - 1 then slept + BASE_BACKOFF_SEC * (i + 1) else slept
      scraperFetchLoop oracle maxRetries left (i + 1) (some .transport) (attempts + 1) slept2

/-- baitoru_scraper.fetch_html(url, max_retries): result, number of GET
attempts made, total seconds slept. -/
def scraper_fetch_html (oracle : Nat → CallOutcome) (maxRetries : Nat) :
    ScraperResult × Nat × Nat :=
  scraperFetchLoop oracle maxRetries maxRetries 0 none 0 0

/-- The loop of fetch_info_baitoru.fetch_html (first argument again the
iterations left of MAX_RETRIES): a 200 response returns its text at
once, any other status returns None at once without retry or sleep, and
a transport failure sleeps BASE_BACKOFF_SEC * (i + 1) (unconditionally,
also after the final attempt) and retries; None after the retries are
exhausted. -/
def fetchInfoLoop (oracle : Nat → CallOutcome) :
    Nat → Nat → Nat → Nat → Option String × Nat × Nat
  | 0, _i, attempts, slept => (none, attempts, slept)
  | left + 1, i, attempts, slept =>
    match oracle i with
    | .resp st body =>
      if st = 200 then (some body, attempts + 1, slept)
      else (none, attempts + 1, slept)
    | .transportExc =>
      fetchInfoLoop oracle left (i + 1) (attempts + 1) (slept + BASE_BACKOFF_SEC * (i + 1))

/-- fetch_info_baitoru.fetch_html(url, session): result (None on
failure, never an exception), attempts made, total seconds slept. -/
def fetch_info_fetch_html (oracle : Nat → CallOutcome) : Option String × Nat × Nat :=
  fetchInfoLoop oracle MAX_RETRIES 0 0 0

/-! ### baitoru_scraper.py: prefecture extraction

PREF_PATTERN = (北海道|東京都|京都府|大阪府|..県): re.search scans
positions left to right and tries the alternatives in order at each
position; "." matches any character except a newline. -/

/-- The catch-all alternative ..県 of PREF_PATTERN: any two characters
other than a newline (the regex dot) followed by the literal 県. -/
def prefCatchAll : Chars → Option Chars
  | a :: b :: c :: _ =>
    if a ≠ '\n' ∧ b ≠ '\n' ∧ c = '県' then some [a, b, '県'] else none
  | _ => none

/-- One attempt of PREF_PATTERN at the front of the text, trying the
alternatives in the order they are written. -/
def prefMatchAt (s : Chars) : Option Chars :=
  if s.take 3 = "北海道".data then some "北海道".data
  else if s.take 3 = "東京都".data then some "東京都".data
  else if s.take 3 = "京都府".data then some "京都府".data
  else if s.take 3 = "大阪府".data then some "大阪府".data
  else prefCatchAll s

def prefSearch : Chars → Option Chars
  | [] => none
  | c :: cs =>
    match prefMatchAt (c :: cs) with
    | some m => some m
    | none => prefSearch cs

/-- baitoru_scraper.extract_prefecture: None for a missing or empty
address, otherwise the first PREF_PATTERN match, None when there is
none. -/
def extract_prefecture (address_text : Option String) : Option String :=
  match address_text with
  | none => none
  | some s => if s = "" then none else (prefSearch s.data).map String.mk

/-! ### baitoru_scraper.py: CSV export -/

def FIELDS : List String :=
  ["取得日時", "取得URL", "名称", "電話番号", "都道府県", "住所", "業種",
   "法人番号", "代表者", "資本金", "売上", "従業員数", "設立日", "事業内容",
   "HP"]

/-- A scraped row: a Python dict from field name to a string or None. -/
abbrev Row := List (String × Option String)

/-- row.get(k): none when the key is missing, some v (v possibly None)
when present. -/
def rowGet (r : Row) (k : String) : Option (Option String) :=
  (r.find? (fun p => p.1 = k)).map (·.2)

/-- The per-field value save_to_csv writes: row.get(field, "") when
row.get(field) is not None, else "" — so a missing key or a None value
renders as the empty string and a present string is written unchanged. -/
def safeCell (r : Row) (f : String) : String :=
  match rowGet r f with
  | some (some v) => v
  | _ => ""

/-- baitoru_scraper.save_to_csv: None models the early return (warning,
nothing written) on an empty row list; otherwise the written table, a
header of the 15 field names followed by one row per record. -/
def save_to_csv (rows : List Row) : Option (List (List String)) :=
  if rows = [] then none
  else some (FIELDS :: rows.map (fun r => FIELDS.map (safeCell r)))

/-- Reading one data line of the written CSV back against the header
gives a row in which every field is present. -/
def parseCsvRow (header : List String) (cells : List String) : Row :=
  header.zip (cells.map some)

end Baitoru

namespace Baitoru

/-! ### fetch_info_baitoru.py: link and identifier extraction -/

def BASE_DOMAIN : String := "www.baitoru.com"

/-- Python set insertion, kept as a list deduplicated in first-insertion
order (iteration order of a Python set is arbitrary; no property proved
below depends on the order). -/
def insertIfAbsent (l : List String) (x : String) : List String :=
  if x ∈ l then l else l ++ [x]

/-- The per-anchor body of the extract_cjlist_ids_from_html loop: the
first CJLIST_RE match in the href — or, when the href itself has none,
in its urlparse path component — adds the captured identifier to the
set. -/
def cjlistIdStep (ids : List String) (href : String) : List String :=
  let m :=
    match cjlistSearchStr href with
    | some ds => some ds
    | none => cjlistSearchStr (UrllibParse.urlparse href).path
  match m with
  | some ds => insertIfAbsent ids ds
  | none => ids

/-- fetch_info_baitoru.extract_cjlist_ids_from_html: the loop body above
over every anchor href, in document order. -/
def extract_cjlist_ids_from_html (doc : Node) : List String :=
  (anchorHrefs doc).foldl cjlistIdStep []

/-- The per-row body of the extract_job_links_from_listing_html loop:
the first anchor with an href below the listing row is resolved against
the base URL; the absolute URL is kept only when its netloc is empty or
equal to BASE_DOMAIN and its path matches JOB_DETAIL_RE. -/
def jobLinkStep (base_url : String) (links : List String) (li : Node) : List String :=
  match findAnchorHrefList li.childrenOf with
  | none => links
  | some href =>
    let abs_url := UrllibParse.urljoin base_url href
    let parsed := UrllibParse.urlparse abs_url
    if parsed.netloc ≠ "" ∧ parsed.netloc ≠ BASE_DOMAIN then links
    else if ¬ jobDetailSearch parsed.path.data then links
    else insertIfAbsent links abs_url

/-- fetch_info_baitoru.extract_job_links_from_listing_html: the loop
body above over every li.li01 under a ul.ul01, in document order. -/
def extract_job_links_from_listing_html (doc : Node) (base_url : String) : List String :=
  (selectLi01 false doc).foldl (jobLinkStep base_url) []

def COMPANY_LINK_PHRASE : String := "この会社の情報をもっと見る"

/-- fetch_info_baitoru.extract_company_url_from_job_html: the first
anchor whose .string contains the fixed phrase and which has an href;
its href is resolved against the job URL, and the canonical company URL
is rebuilt from scheme, netloc and path (dropping query and fragment). -/
def extract_company_url_from_job_html (doc : Node) (job_url : String) : Option String :=
  match findAnchorByString (fun s => s ≠ "" && containsSub COMPANY_LINK_PHRASE s) doc with
  | none => none
  | some href =>
    let parsed := UrllibParse.urlparse (UrllibParse.urljoin job_url href)
    some (UrllibParse.urljoin (parsed.scheme ++ "://" ++ parsed.netloc) parsed.path)

/-- Python str.strip(): whitespace removed from both ends. -/
def pyStrip (s : String) : String :=
  String.mk (((s.data.dropWhile Char.isWhitespace).reverse.dropWhile Char.isWhitespace).reverse)

/-- fetch_info_baitoru.find_next_page_url.is_valid_href: non-empty and
not a javascript: pseudo-URL (after stripping and lower-casing). -/
def is_valid_href (href : String) : Bool :=
  href ≠ "" && ¬ startsWithChars "javascript:".data (lowerList (pyStrip href).data)

def NEXT_TEXT_CANDIDATES : List String := ["次へ", "次のページ", "次>", "Next", "›"]

/-- The candidate-text pass of find_next_page_url: for each candidate
phrase in order, the first anchor whose .string contains it; its href
(defaulting to the empty string when absent) must be valid, otherwise
the next candidate is tried. -/
def nextByText (doc : Node) (base_url : String) : List String → Option String
  | [] => none
  | t :: rest =>
    match findAnchorText (fun s => s ≠ "" && containsSub t s) doc with
    | some attrs =>
      let href := (getAttr attrs "href").getD ""
      if is_valid_href href then some (UrllibParse.urljoin base_url href)
      else nextByText doc base_url rest
    | none => nextByText doc base_url rest

/-- fetch_info_baitoru.find_next_page_url: an anchor with rel next and a
valid href wins; otherwise the candidate-text pass runs. -/
def find_next_page_url (doc : Node) (base_url : String) : Option String :=
  match findRelNext doc with
  | some attrs =>
    let href := (getAttr attrs "href").getD ""
    if is_valid_href href then some (UrllibParse.urljoin base_url href)
    else nextByText doc base_url NEXT_TEXT_CANDIDATES
  | none => nextByText doc base_url NEXT_TEXT_CANDIDATES

/-! ### fetch_info_baitoru.py: the company registry and the crawl -/

structure CompanyInfo where
  company_id : String
  company_url : String
  source_job_url : String
  source_listing_url : String
deriving DecidableEq, Repr

/-- The company_infos dict: an association list in insertion order. -/
abbrev Registry := List (String × CompanyInfo)

def regLookup (reg : Registry) (cid : String) : Option CompanyInfo :=
  (reg.find? (fun p => p.1 = cid)).map (·.2)

def canonicalCompanyUrl (cid : String) : String :=
  "https://" ++ BASE_DOMAIN ++ "/cjlist" ++ cid ++ "/"

/-- One step of the registration loops (lines 217-223 and 253-259 of
fetch_info_baitoru.py): an identifier not yet in the registry is entered
with the canonical company URL and the given provenance; an identifier
already present is left untouched (the loops iterate only over new
identifiers). -/
def registerIfAbsent (reg : Registry) (cid jobU listU : String) : Registry :=
  if (regLookup reg cid).isSome then reg
  else reg ++ [(cid, ⟨cid, canonicalCompanyUrl cid, jobU, listU⟩)]

def registerNewIds (reg : Registry) (ids : List String) (jobU listU : String) : Registry :=
  ids.foldl (fun r cid => registerIfAbsent r cid jobU listU) reg

/-- The three mutations applied to a registry entry after setdefault
(lines 279-283): the canonical URL is always overwritten, the two
provenance fields only when they are empty (Python falsy). -/
def mergeInfo (info : CompanyInfo) (curl jobU listU : String) : CompanyInfo :=
  { info with
    company_url := curl,
    source_job_url := if info.source_job_url = "" then jobU else info.source_job_url,
    source_listing_url :=
      if info.source_listing_url = "" then listU else info.source_listing_url }

/-- setdefault followed by the three mutations (lines 270-283). -/
def mergeObservation (reg : Registry) (cid curl jobU listU : String) : Registry :=
  match regLookup reg cid with
  | none => reg ++ [(cid, mergeInfo ⟨cid, curl, jobU, listU⟩ curl jobU listU)]
  | some _ => reg.map (fun p => if p.1 = cid then (p.1, mergeInfo p.2 curl jobU listU) else p)

/-- The crawl environment: what fetching and parsing a URL yields.  A
none covers a fetch that returned None as well as one that returned an
empty document (both are falsy at the call sites).  Sleeps (politeness
delays) have no observable effect on the state and are not modelled. -/
structure CrawlEnv where
  fetch : String → Option Node

structure CrawlState where
  registry : Registry
  visited_listing : List String
  visited_job : List String
  listingFetchLog : List String
  jobFetchLog : List String

def initCrawlState : CrawlState := ⟨[], [], [], [], []⟩

/-- The inner for-loop over a listing page's job links (lines 233-286):
stop at the global job-page bound, skip visited links, mark then fetch,
skip failed fetches, register the identifiers found on the job page and
merge the extracted canonical company URL. -/
def processJobs (env : CrawlEnv) (maxJobPages : Nat) (listingUrl : String) :
    List String → CrawlState → CrawlState
  | [], st => st
  | job :: rest, st =>
    if maxJobPages ≤ st.visited_job.length then st
    else if job ∈ st.visited_job then processJobs env maxJobPages listingUrl rest st
    else
      let st1 := { st with visited_job := job :: st.visited_job,
                           jobFetchLog := job :: st.jobFetchLog }
      match env.fetch job with
      | none => processJobs env maxJobPages listingUrl rest st1
      | some jdoc =>
        let st2 := { st1 with
          registry := registerNewIds st1.registry (extract_cjlist_ids_from_html jdoc)
            job listingUrl }
        let st3 :=
          match extract_company_url_from_job_html jdoc job with
          | none => st2
          | some curl =>
            match cjlistSearchStr (UrllibParse.urlparse curl).path with
            | none => st2
            | some cid =>
              { st2 with registry := mergeObservation st2.registry cid curl job listingUrl }
        processJobs env maxJobPages listingUrl rest st3

/-- The body of one successful listing-page iteration of the outer
while-loop, on the state with the page already marked visited: register
the identifiers found on the page (with an empty job-URL provenance)
and process the job links. -/
def listingStep (env : CrawlEnv) (maxJobPages : Nat) (url : String) (doc : Node)
    (st1 : CrawlState) : CrawlState :=
  let st2 := { st1 with
    registry := registerNewIds st1.registry (extract_cjlist_ids_from_html doc) "" url }
  processJobs env maxJobPages url (extract_job_links_from_listing_html doc url) st2

/-- The outer while-loop (lines 199-291), recursing on the remaining
listing-page budget (the loop guard listing_count < max_listing_pages
with listing_count incremented once per iteration).  It stops when the
next URL is missing or empty (Python falsy), when the budget is spent,
when the current listing URL was already visited, or when the listing
fetch fails; otherwise it registers the identifiers on the page,
processes the job links and follows the next-page URL. -/
def crawlLoop (env : CrawlEnv) (maxJobPages : Nat) :
    Nat → Option String → CrawlState → CrawlState
  | _, none, st => st
  | 0, some _, st => st
  | fuel + 1, some url, st =>
    if url = "" then st
    else if url ∈ st.visited_listing then st
    else
      let st1 := { st with visited_listing := url :: st.visited_listing,
                           listingFetchLog := url :: st.listingFetchLog }
      match env.fetch url with
      | none => st1
      | some doc =>
        crawlLoop env maxJobPages fuel (find_next_page_url doc url)
          (listingStep env maxJobPages url doc st1)

/-- fetch_info_baitoru.crawl_baitoru_company_ids, returning the final
crawl state (the Python function returns list of the registry values,
crawlRecords below). -/
def crawl_baitoru_company_ids (env : CrawlEnv) (start_listing_url : String)
    (max_listing_pages max_job_pages : Nat) : CrawlState :=
  crawlLoop env max_job_pages max_listing_pages (some start_listing_url) initCrawlState

def crawlRecords (st : CrawlState) : List CompanyInfo := st.registry.map (·.2)

end Baitoru

namespace Baitoru

/-! ### Claims about the fetchers (C1, C4, C6) -/

/-- Claim C1 counterexample: the profile-page fetch_html does NOT treat
a non-2xx status as an immediate failure without retry or backoff.  With
every GET answering status 404, raise_for_status raises HTTPError, a
subclass of the caught RequestException, so the loop makes all 3
attempts and sleeps 3*1 + 3*2 = 9 seconds before raising — against the
claimed 1 attempt and 0 sleep. -/
theorem claim_C1_counterexample :
    scraper_fetch_html (fun _ => .resp 404 "err") 3 =
      (.raised (some (.httpError 404)), 3, 9) ∧ ¬ ((3 : Nat) = 1 ∧ (9 : Nat) = 0) := by
  constructor
  · rfl
  · decide

/-- Claim C1 as amended: the listing/job variant
(fetch_info_baitoru.fetch_html) does treat any non-200 status on the
first call as an immediate failure, one attempt and no sleep, and
retries only transport failures; the profile variant
(baitoru_scraper.fetch_html) instead catches the HTTPError that
raise_for_status raises for a 4xx or 5xx status with the same handler as
a transport failure, so such statuses are retried with linear backoff up
to the ceiling of 3 attempts, while a non-2xx status below 400 is
returned as a success. -/
theorem claim_C1_amended :
    (∀ (oracle : Nat → CallOutcome) (st : Nat) (body : String), st ≠ 200 →
      oracle 0 = .resp st body →
      fetch_info_fetch_html oracle = (none, 1, 0)) ∧
    (∀ st : Nat, 400 ≤ st → st < 600 → ∀ body : String,
      scraper_fetch_html (fun _ => .resp st body) 3 =
        (.raised (some (.httpError st)), 3, 9)) ∧
    (∀ st : Nat, st < 400 → ∀ body : String,
      scraper_fetch_html (fun _ => .resp st body) 3 = (.ok body, 1, 0)) := by
  refine ⟨?_, ?_, ?_⟩
  · intro oracle st body hst h0
    simp [fetch_info_fetch_html, fetchInfoLoop, MAX_RETRIES, h0, hst]
  · intro st h4 h6 body
    simp [scraper_fetch_html, scraperFetchLoop, raiseForStatus, BASE_BACKOFF_SEC,
      if_pos (And.intro h4 h6)]
  · intro st h4 body
    have : raiseForStatus st = none := by
      unfold raiseForStatus
      rw [if_neg]
      omega
    simp [scraper_fetch_html, scraperFetchLoop, this]

/-- Claim C4: when the first k GET calls fail at transport level
(k below the ceiling of 3) and call k+1 returns status 200, both
fetch_html variants return that body after exactly k+1 attempts, and the
cumulative backoff slept equals BASE_BACKOFF_SEC * (1 + 2 + ... + k). -/
theorem claim_C4 (oracle : Nat → CallOutcome) (k : Nat) (body : String)
    (hk : k < 3)
    (hfail : ∀ i, i < k → oracle i = .transportExc)
    (hsucc : oracle k = .resp 200 body) :
    scraper_fetch_html oracle 3 =
      (.ok body, k + 1, BASE_BACKOFF_SEC * (List.range k).foldl (fun a i => a + (i + 1)) 0) ∧
    fetch_info_fetch_html oracle =
      (some body, k + 1, BASE_BACKOFF_SEC * (List.range k).foldl (fun a i => a + (i + 1)) 0) := by
  interval_cases k
  · simp [scraper_fetch_html, scraperFetchLoop, fetch_info_fetch_html, fetchInfoLoop,
      MAX_RETRIES, hsucc, raiseForStatus]
  · have h0 := hfail 0 (by norm_num)
    simp [scraper_fetch_html, scraperFetchLoop, fetch_info_fetch_html, fetchInfoLoop,
      MAX_RETRIES, BASE_BACKOFF_SEC, h0, hsucc, raiseForStatus, List.range_succ]
  · have h0 := hfail 0 (by norm_num)
    have h1 := hfail 1 (by norm_num)
    simp [scraper_fetch_html, scraperFetchLoop, fetch_info_fetch_html, fetchInfoLoop,
      MAX_RETRIES, BASE_BACKOFF_SEC, h0, h1, hsucc, raiseForStatus, List.range_succ]

/-- Witness for C4 at k = 1: one transport failure, then success. -/
theorem claim_C4_witness :
    scraper_fetch_html (fun i => if i = 0 then .transportExc else .resp 200 "ok") 3 =
      (.ok "ok", 2, 3) ∧
    fetch_info_fetch_html (fun i => if i = 0 then .transportExc else .resp 200 "ok") =
      (some "ok", 2, 3) :=
  claim_C4 (fun i => if i = 0 then .transportExc else .resp 200 "ok") 1 "ok"
    (by norm_num) (fun i hi => by interval_cases i; rfl) rfl

/-- Claim C6 counterexample: the profile-page fetch_html raises the last
exception past the fetcher boundary once the retries are exhausted,
rather than returning a failure value: with every call failing at
transport level the result is the raised-exception outcome. -/
theorem claim_C6_counterexample :
    scraper_fetch_html (fun _ => .transportExc) 3 =
      (.raised (some .transport), 3, 9) ∧
    (∀ body : String, scraper_fetch_html (fun _ => .transportExc) 3 ≠ (.ok body, 3, 9)) := by
  constructor
  · rfl
  · intro body h
    simp [scraper_fetch_html, scraperFetchLoop, BASE_BACKOFF_SEC] at h

/-- Claim C6 as amended: the listing/job variant never raises — on
exhausted retries (and on a non-200 status) it returns None after
logging the last cause; the profile variant instead re-raises the last
underlying exception (carrying its cause) to its caller, which catches
it one level further up (scrape_many_company_pages). -/
theorem claim_C6_amended (oracle : Nat → CallOutcome)
    (hfail : ∀ i, i < 3 → oracle i = .transportExc) :
    fetch_info_fetch_html oracle = (none, 3, 18) ∧
    scraper_fetch_html oracle 3 = (.raised (some .transport), 3, 9) := by
  have h0 := hfail 0 (by norm_num)
  have h1 := hfail 1 (by norm_num)
  have h2 := hfail 2 (by norm_num)
  constructor
  · simp [fetch_info_fetch_html, fetchInfoLoop, MAX_RETRIES, BASE_BACKOFF_SEC, h0, h1, h2]
  · simp [scraper_fetch_html, scraperFetchLoop, BASE_BACKOFF_SEC, h0, h1, h2]

/-- Witness for C6 as amended, at the all-transport-failure oracle. -/
theorem claim_C6_amended_witness :
    fetch_info_fetch_html (fun _ => .transportExc) = (none, 3, 18) ∧
    scraper_fetch_html (fun _ => .transportExc) 3 = (.raised (some .transport), 3, 9) :=
  claim_C6_amended (fun _ => .transportExc) (fun _ _ => rfl)

end Baitoru

namespace Baitoru

/-! ### Claim C3: prefecture extraction -/

/-- Claim C3 counterexample: for an address beginning with the full
prefecture name 神奈川県 (one of the 47 region names, three kanji plus
the 県 suffix), extract_prefecture returns the truncated 奈川県 — the
catch-all branch of PREF_PATTERN matches exactly two characters before
県, so the returned value is not the complete region name. -/
theorem claim_C3_counterexample :
    extract_prefecture (some "神奈川県横浜市") = some "奈川県" ∧
    ("奈川県" : String) ≠ "神奈川県" := by
  exact ⟨rfl, by decide⟩

/-- Every PREF_PATTERN match is one of the four exact alternatives or
two characters followed by 県. -/
theorem prefMatchAt_shape (l m : Chars) (h : prefMatchAt l = some m) :
    m = "北海道".data ∨ m = "東京都".data ∨ m = "京都府".data ∨ m = "大阪府".data ∨
      ∃ a b : Char, m = [a, b, '県'] := by
  simp only [prefMatchAt] at h
  split_ifs at h with h1 h2 h3 h4
  · cases h; left; rfl
  · cases h; right; left; rfl
  · cases h; right; right; left; rfl
  · cases h; right; right; right; left; rfl
  · right; right; right; right
    match l, h with
    | a :: b :: c :: _, h =>
      simp only [prefCatchAll] at h
      split_ifs at h with h5
      cases h
      exact ⟨a, b, rfl⟩

theorem prefSearch_shape (l m : Chars) (h : prefSearch l = some m) :
    m = "北海道".data ∨ m = "東京都".data ∨ m = "京都府".data ∨ m = "大阪府".data ∨
      ∃ a b : Char, m = [a, b, '県'] := by
  induction l with
  | nil => exact absurd h (by simp [prefSearch])
  | cons c cs ih =>
    simp only [prefSearch] at h
    cases hat : prefMatchAt (c :: cs) with
    | none => rw [hat] at h; exact ih h
    | some m2 =>
      rw [hat] at h
      simp at h
      subst h
      exact prefMatchAt_shape _ _ hat

/-- Claim C3 as amended: extract_prefecture returns none for a missing
or empty address; for an address beginning with any two non-newline
characters followed by 県 it returns exactly those three characters (so
a two-kanji prefecture name with the 県 suffix is returned complete,
a three-kanji one is truncated to its last two kanji plus 県, and a
non-prefecture two-character-plus-県 substring also matches); and every
returned value is one of the four exact alternatives 北海道, 東京都,
京都府, 大阪府 or some two characters followed by 県. -/
theorem claim_C3_amended :
    (extract_prefecture none = none) ∧
    (extract_prefecture (some "") = none) ∧
    (∀ (a b : Char) (rest : List Char), a ≠ '\n' → b ≠ '\n' →
      extract_prefecture (some (String.mk (a :: b :: '県' :: rest))) =
        some (String.mk [a, b, '県'])) ∧
    (∀ (s p : String), extract_prefecture (some s) = some p →
      p = "北海道" ∨ p = "東京都" ∨ p = "京都府" ∨ p = "大阪府" ∨
        ∃ a b : Char, p = String.mk [a, b, '県']) := by
  refine ⟨rfl, rfl, ?_, ?_⟩
  · intro a b rest ha hb
    have hne : String.mk (a :: b :: '県' :: rest) ≠ "" := by
      intro h
      have h2 := congrArg String.data h
      simp at h2
    have hm : prefMatchAt (a :: b :: '県' :: rest) = some [a, b, '県'] := by
      simp [prefMatchAt, prefCatchAll, ha, hb]
    simp only [extract_prefecture, if_neg hne]
    simp [prefSearch, hm]
  · intro s p hp
    simp only [extract_prefecture] at hp
    by_cases hs : s = ""
    · simp [hs] at hp
    · rw [if_neg hs] at hp
      obtain ⟨m, hm, rfl⟩ := Option.map_eq_some'.mp hp
      rcases prefSearch_shape _ _ hm with h | h | h | h | ⟨a, b, h⟩
      · left; rw [h]
      · right; left; rw [h]
      · right; right; left; rw [h]
      · right; right; right; left; rw [h]
      · right; right; right; right; exact ⟨a, b, by rw [h]⟩

/-! ### Claim C8: CSV export -/

theorem rowGet_cons (k : String) (x : Option String) (rest : Row) (f : String) :
    rowGet ((k, x) :: rest) f = if k = f then some x else rowGet rest f := by
  by_cases h : k = f
  · rw [if_pos h, rowGet, List.find?_cons_of_pos _ (by simp [h])]
    rfl
  · rw [if_neg h, rowGet, List.find?_cons_of_neg _ (by simp [h])]
    rfl

theorem rowGet_parse_all_present (header : List String) (r : Row) (f : String)
    (hf : f ∈ header)
    (hall : ∀ g ∈ header, ∃ v, rowGet r g = some (some v)) :
    rowGet (parseCsvRow header (header.map (safeCell r))) f = rowGet r f := by
  induction header with
  | nil => cases hf
  | cons h t ih =>
    have hcons : parseCsvRow (h :: t) ((h :: t).map (safeCell r)) =
        (h, some (safeCell r h)) :: parseCsvRow t (t.map (safeCell r)) := by
      simp [parseCsvRow]
    rw [hcons, rowGet_cons]
    by_cases hfh : h = f
    · subst hfh
      rw [if_pos rfl]
      obtain ⟨v, hv⟩ := hall h (by simp)
      have hs : safeCell r h = v := by rw [safeCell, hv]
      rw [hv, hs]
    · rw [if_neg hfh]
      have ht : f ∈ t := by
        cases hf with
        | head => exact absurd rfl hfh
        | tail _ h2 => exact h2
      exact ih ht (fun g hg => hall g (List.mem_cons_of_mem _ hg))

/-- Claim C8: save_to_csv writes, for a non-empty row collection, a
header of the fixed 15-column schema and exactly one line per record;
a present string field is written unchanged and an absent field (missing
key or None value) as the empty string, so re-parsing a line against the
header returns the original values whenever all fields are present; an
empty collection yields no table at all (a warning and an early return,
not an error). -/
theorem claim_C8 :
    FIELDS.length = 15 ∧
    save_to_csv [] = none ∧
    (∀ rows : List Row, rows ≠ [] → ∃ table,
      save_to_csv rows = some table ∧
      table.length = rows.length + 1 ∧
      table.head? = some FIELDS ∧
      ∀ r ∈ rows, FIELDS.map (safeCell r) ∈ table.tail) ∧
    (∀ (r : Row) (f : String) (v : String),
      rowGet r f = some (some v) → safeCell r f = v) ∧
    (∀ (r : Row) (f : String),
      rowGet r f = none ∨ rowGet r f = some none → safeCell r f = "") ∧
    (∀ (r : Row) (f : String), f ∈ FIELDS →
      (∀ g ∈ FIELDS, ∃ v, rowGet r g = some (some v)) →
      rowGet (parseCsvRow FIELDS (FIELDS.map (safeCell r))) f = rowGet r f) := by
  refine ⟨rfl, rfl, ?_, ?_, ?_, ?_⟩
  · intro rows hne
    refine ⟨FIELDS :: rows.map (fun r => FIELDS.map (safeCell r)), ?_, ?_, rfl, ?_⟩
    · simp [save_to_csv, hne]
    · simp
    · intro r hr
      simp only [List.tail_cons]
      exact List.mem_map_of_mem _ hr
  · intro r f v hv
    rw [safeCell, hv]
  · intro r f hv
    cases hv with
    | inl h => rw [safeCell, h]
    | inr h => rw [safeCell, h]
  · exact fun r f hf hall => rowGet_parse_all_present FIELDS r f hf hall

/-! ### Claim C2: registry merge and registration -/

theorem regLookup_cons (k : String) (v : CompanyInfo) (rest : Registry) (cid : String) :
    regLookup ((k, v) :: rest) cid = if k = cid then some v else regLookup rest cid := by
  by_cases h : k = cid
  · rw [if_pos h, regLookup, List.find?_cons_of_pos _ (by simp [h])]
    rfl
  · rw [if_neg h, regLookup, List.find?_cons_of_neg _ (by simp [h])]
    rfl

theorem regLookup_map_update (reg : Registry) (cid : String)
    (g : CompanyInfo → CompanyInfo) (info : CompanyInfo)
    (h : regLookup reg cid = some info) :
    regLookup (reg.map (fun p => if p.1 = cid then (p.1, g p.2) else p)) cid =
      some (g info) := by
  induction reg with
  | nil => simp [regLookup] at h
  | cons hd tl ih =>
    obtain ⟨k, v⟩ := hd
    rw [regLookup_cons] at h
    simp only [List.map_cons]
    by_cases hk : k = cid
    · rw [if_pos hk] at h
      cases h
      rw [if_pos hk, regLookup_cons, if_pos hk]
    · rw [if_neg hk] at h
      rw [if_neg hk, regLookup_cons, if_neg hk]
      exact ih h

/-- Claim C2: once an identifier is in the registry, the merge step
(lines 261-283 of fetch_info_baitoru.py) always overwrites the stored
canonical company URL with the newly observed one, while a non-empty
first-seen job URL and a non-empty first-seen listing URL are left
unchanged by the merge; and the registration loops never modify the
entry of an identifier already present. -/
theorem claim_C2 (reg : Registry) (cid curl jobU listU jobU2 listU2 : String)
    (info : CompanyInfo) (h : regLookup reg cid = some info) :
    regLookup (mergeObservation reg cid curl jobU listU) cid =
      some { info with
        company_url := curl,
        source_job_url :=
          if info.source_job_url = "" then jobU else info.source_job_url,
        source_listing_url :=
          if info.source_listing_url = "" then listU else info.source_listing_url } ∧
    (info.source_job_url ≠ "" →
      (regLookup (mergeObservation reg cid curl jobU listU) cid).map
        (·.source_job_url) = some info.source_job_url) ∧
    (info.source_listing_url ≠ "" →
      (regLookup (mergeObservation reg cid curl jobU listU) cid).map
        (·.source_listing_url) = some info.source_listing_url) ∧
    regLookup (registerIfAbsent reg cid jobU2 listU2) cid = some info := by
  have hmerge : mergeObservation reg cid curl jobU listU =
      reg.map (fun p => if p.1 = cid then (p.1, mergeInfo p.2 curl jobU listU) else p) := by
    rw [mergeObservation, h]
  have h1 := regLookup_map_update reg cid (fun i => mergeInfo i curl jobU listU) info h
  rw [← hmerge] at h1
  refine ⟨h1, ?_, ?_, ?_⟩
  · intro hjob
    rw [h1]
    simp [mergeInfo, hjob]
  · intro hlist
    rw [h1]
    simp [mergeInfo, hlist]
  · simp [registerIfAbsent, h]

/-- Witness for C2 at a one-entry registry: the canonical URL is
overwritten while both non-empty provenance fields survive a merge that
carries different values for them. -/
theorem claim_C2_witness :
    regLookup (mergeObservation [("25189", ⟨"25189", "https://www.baitoru.com/cjlist25189/",
        "https://www.baitoru.com/kanto/j1/", "https://www.baitoru.com/kanto/jlist/"⟩)]
      "25189" "https://www.baitoru.com/cjlist25189x/" "https://www.baitoru.com/kanto/j2/"
      "https://www.baitoru.com/kansai/jlist/") "25189" =
      some ⟨"25189", "https://www.baitoru.com/cjlist25189x/",
        "https://www.baitoru.com/kanto/j1/", "https://www.baitoru.com/kanto/jlist/"⟩ := by
  have h := (claim_C2 [("25189", ⟨"25189", "https://www.baitoru.com/cjlist25189/",
      "https://www.baitoru.com/kanto/j1/", "https://www.baitoru.com/kanto/jlist/"⟩)]
    "25189" "https://www.baitoru.com/cjlist25189x/" "https://www.baitoru.com/kanto/j2/"
    "https://www.baitoru.com/kansai/jlist/" "j" "l"
    ⟨"25189", "https://www.baitoru.com/cjlist25189/",
      "https://www.baitoru.com/kanto/j1/", "https://www.baitoru.com/kanto/jlist/"⟩ rfl).1
  simpa using h

end Baitoru

namespace Baitoru

/-! ### Claim C9: absolute versus relative employer hrefs -/

theorem ciStrip_append (p s : Chars) (h : ∀ c ∈ p, asciiLower c = c) :
    ciStrip p (p ++ s) = some s := by
  induction p with
  | nil => rfl
  | cons a as ih =>
    simp only [List.cons_append, ciStrip, h a (by simp), if_pos rfl]
    exact ih (fun c hc => h c (List.mem_cons_of_mem _ hc))

theorem takeWhile_append_stop (p : Char → Bool) (l : Chars) (c : Char) (l2 : Chars)
    (hall : ∀ x ∈ l, p x = true) (hc : p c = false) :
    (l ++ c :: l2).takeWhile p = l := by
  induction l with
  | nil => simp [List.takeWhile_cons, hc]
  | cons a as ih =>
    rw [List.cons_append, List.takeWhile_cons, if_pos (hall a (by simp)),
      ih (fun x hx => hall x (List.mem_cons_of_mem _ hx))]

/-- A CJLIST_RE attempt at a position whose first character is not a
slash fails. -/
theorem cjlistMatchAt_cons_ne (c : Char) (cs : Chars) (h : asciiLower c ≠ '/') :
    cjlistMatchAt (c :: cs) = none := by
  have hdata : "/cjlist".data = '/' :: 'c' :: 'j' :: 'l' :: 'i' :: 's' :: 't' :: [] := rfl
  simp [cjlistMatchAt, hdata, ciStrip, h]

/-- A CJLIST_RE attempt at a slash not followed by the letter c fails. -/
theorem cjlistMatchAt_slash_ne (d : Char) (cs : Chars) (h : asciiLower d ≠ 'c') :
    cjlistMatchAt ('/' :: d :: cs) = none := by
  have hdata : "/cjlist".data = '/' :: 'c' :: 'j' :: 'l' :: 'i' :: 's' :: 't' :: [] := rfl
  have hs : asciiLower '/' = '/' := by decide
  simp [cjlistMatchAt, hdata, ciStrip, hs, h]

theorem cjlistSearch_cons_none (c : Char) (cs : Chars)
    (h : cjlistMatchAt (c :: cs) = none) :
    cjlistSearch (c :: cs) = cjlistSearch cs := by
  simp [cjlistSearch, h]

/-- The whole CJLIST_RE match at the start of /cjlist{id}/... -/
theorem cjlistMatchAt_exact (id rest : Chars) (hne : id ≠ [])
    (hdig : ∀ c ∈ id, c.isDigit = true) :
    cjlistMatchAt ("/cjlist".data ++ id ++ '/' :: rest) = some id := by
  have hlow : ∀ c ∈ "/cjlist".data, asciiLower c = c := by decide
  have hstrip := ciStrip_append "/cjlist".data (id ++ '/' :: rest) hlow
  have htake : (id ++ '/' :: rest).takeWhile Char.isDigit = id :=
    takeWhile_append_stop _ _ _ _ hdig (by decide)
  have hred : cjlistMatchAt ("/cjlist".data ++ id ++ '/' :: rest) =
      (let ds := List.takeWhile Char.isDigit (id ++ '/' :: rest)
       if ds ≠ [] ∧ (List.drop ds.length (id ++ '/' :: rest)).head? = some '/'
       then some ds else none) := by
    rw [cjlistMatchAt, List.append_assoc, hstrip]
  rw [hred]
  simp only [htake]
  rw [if_pos ⟨hne, by rw [List.drop_left]; rfl⟩]

theorem cjlistSearch_exact (id rest : Chars) (hne : id ≠ [])
    (hdig : ∀ c ∈ id, c.isDigit = true) :
    cjlistSearch ("/cjlist".data ++ id ++ '/' :: rest) = some id := by
  have h := cjlistMatchAt_exact id rest hne hdig
  rw [show ("/cjlist".data ++ id ++ '/' :: rest : Chars) =
    '/' :: ("cjlist".data ++ id ++ '/' :: rest) from by simp]
  rw [cjlistSearch]
  rw [show ('/' :: ("cjlist".data ++ id ++ '/' :: rest) : Chars) =
    "/cjlist".data ++ id ++ '/' :: rest from by simp] at *
  rw [h]

/-- Prefixing the fixed site origin does not change the CJLIST_RE
search: no attempt inside https://www.baitoru.com can start a match. -/
theorem cjlistSearch_baitoru_origin (s : Chars) :
    cjlistSearch ("https://www.baitoru.com".data ++ s) = cjlistSearch s := by
  show cjlistSearch ('h' :: 't' :: 't' :: 'p' :: 's' :: ':' :: '/' :: '/' :: 'w' :: 'w' ::
    'w' :: '.' :: 'b' :: 'a' :: 'i' :: 't' :: 'o' :: 'r' :: 'u' :: '.' :: 'c' :: 'o' ::
    'm' :: s) = cjlistSearch s
  rw [cjlistSearch_cons_none _ _ (cjlistMatchAt_cons_ne _ _ (by decide))]
  rw [cjlistSearch_cons_none _ _ (cjlistMatchAt_cons_ne _ _ (by decide))]
  rw [cjlistSearch_cons_none _ _ (cjlistMatchAt_cons_ne _ _ (by decide))]
  rw [cjlistSearch_cons_none _ _ (cjlistMatchAt_cons_ne _ _ (by decide))]
  rw [cjlistSearch_cons_none _ _ (cjlistMatchAt_cons_ne _ _ (by decide))]
  rw [cjlistSearch_cons_none _ _ (cjlistMatchAt_cons_ne _ _ (by decide))]
  rw [cjlistSearch_cons_none _ _ (cjlistMatchAt_slash_ne _ _ (by decide))]
  rw [cjlistSearch_cons_none _ _ (cjlistMatchAt_slash_ne _ _ (by decide))]
  rw [cjlistSearch_cons_none _ _ (cjlistMatchAt_cons_ne _ _ (by decide))]
  rw [cjlistSearch_cons_none _ _ (cjlistMatchAt_cons_ne _ _ (by decide))]
  rw [cjlistSearch_cons_none _ _ (cjlistMatchAt_cons_ne _ _ (by decide))]
  rw [cjlistSearch_cons_none _ _ (cjlistMatchAt_cons_ne _ _ (by decide))]
  rw [cjlistSearch_cons_none _ _ (cjlistMatchAt_cons_ne _ _ (by decide))]
  rw [cjlistSearch_cons_none _ _ (cjlistMatchAt_cons_ne _ _ (by decide))]
  rw [cjlistSearch_cons_none _ _ (cjlistMatchAt_cons_ne _ _ (by decide))]
  rw [cjlistSearch_cons_none _ _ (cjlistMatchAt_cons_ne _ _ (by decide))]
  rw [cjlistSearch_cons_none _ _ (cjlistMatchAt_cons_ne _ _ (by decide))]
  rw [cjlistSearch_cons_none _ _ (cjlistMatchAt_cons_ne _ _ (by decide))]
  rw [cjlistSearch_cons_none _ _ (cjlistMatchAt_cons_ne _ _ (by decide))]
  rw [cjlistSearch_cons_none _ _ (cjlistMatchAt_cons_ne _ _ (by decide))]
  rw [cjlistSearch_cons_none _ _ (cjlistMatchAt_cons_ne _ _ (by decide))]
  rw [cjlistSearch_cons_none _ _ (cjlistMatchAt_cons_ne _ _ (by decide))]
  rw [cjlistSearch_cons_none _ _ (cjlistMatchAt_cons_ne _ _ (by decide))]

/-- A document with a single employer anchor. -/
def anchorDoc (href : String) : Node :=
  .elem "html" [] [.elem "body" [] [.elem "a" [("href", href)] [.text "link"]]]

def relCjlistHref (id : Chars) : String := String.mk ("/cjlist".data ++ id ++ ['/'])

def absCjlistHref (id : Chars) : String := "https://www.baitoru.com" ++ relCjlistHref id

theorem anchorHrefs_anchorDoc (href : String) : anchorHrefs (anchorDoc href) = [href] := by
  simp [anchorDoc, anchorHrefs, anchorHrefsList, getAttr]

/-- Claim C9: the identifier set extracted by
extract_cjlist_ids_from_html is unchanged when the same /cjlist{id}/
href is written site-relative versus absolute against the site origin,
and both forms yield exactly that identifier.  (In both forms the direct
pattern match on the href already succeeds; the path-component fallback
only runs when the direct match fails, and since the parsed path is a
substring of the href it can never add an identifier the direct match
missed.) -/
theorem claim_C9 (id : Chars) (hne : id ≠ [])
    (hdig : ∀ c ∈ id, c.isDigit = true) :
    extract_cjlist_ids_from_html (anchorDoc (relCjlistHref id)) =
      extract_cjlist_ids_from_html (anchorDoc (absCjlistHref id)) ∧
    extract_cjlist_ids_from_html (anchorDoc (relCjlistHref id)) = [String.mk id] := by
  have hsearchRel : cjlistSearchStr (relCjlistHref id) = some (String.mk id) := by
    rw [cjlistSearchStr]
    rw [show (relCjlistHref id).data = "/cjlist".data ++ id ++ '/' :: [] from rfl]
    rw [cjlistSearch_exact id [] hne hdig]
    rfl
  have hsearchAbs : cjlistSearchStr (absCjlistHref id) = some (String.mk id) := by
    rw [cjlistSearchStr]
    rw [show (absCjlistHref id).data =
      "https://www.baitoru.com".data ++ (relCjlistHref id).data from by
        simp [absCjlistHref, String.data_append]]
    rw [cjlistSearch_baitoru_origin]
    rw [show (relCjlistHref id).data = "/cjlist".data ++ id ++ '/' :: [] from rfl]
    rw [cjlistSearch_exact id [] hne hdig]
    rfl
  have hrel : extract_cjlist_ids_from_html (anchorDoc (relCjlistHref id)) =
      [String.mk id] := by
    rw [extract_cjlist_ids_from_html, anchorHrefs_anchorDoc]
    simp [cjlistIdStep, hsearchRel, insertIfAbsent]
  have habs : extract_cjlist_ids_from_html (anchorDoc (absCjlistHref id)) =
      [String.mk id] := by
    rw [extract_cjlist_ids_from_html, anchorHrefs_anchorDoc]
    simp [cjlistIdStep, hsearchAbs, insertIfAbsent]
  exact ⟨hrel.trans habs.symm, hrel⟩

/-- Witness for C9 at the identifier 25189. -/
theorem claim_C9_witness :
    extract_cjlist_ids_from_html (anchorDoc (relCjlistHref ['2', '5', '1', '8', '9'])) =
      extract_cjlist_ids_from_html (anchorDoc (absCjlistHref ['2', '5', '1', '8', '9'])) ∧
    extract_cjlist_ids_from_html (anchorDoc (relCjlistHref ['2', '5', '1', '8', '9'])) =
      ["25189"] :=
  claim_C9 ['2', '5', '1', '8', '9'] (by decide) (by decide)

end Baitoru

namespace Baitoru

/-! ### Claim C10: every extracted identifier is a non-empty digit
string, and so is every registry key and record identifier -/

/-- The shape of the captured group of CJLIST_RE. -/
def isDigitString (s : String) : Bool := s ≠ "" && s.data.all Char.isDigit

theorem cjlistMatchAt_digits (s ds : Chars) (h : cjlistMatchAt s = some ds) :
    ds ≠ [] ∧ ds.all Char.isDigit = true := by
  rw [cjlistMatchAt] at h
  cases hstrip : ciStrip "/cjlist".data s with
  | none => rw [hstrip] at h; cases h
  | some rest =>
    rw [hstrip] at h
    simp only at h
    split_ifs at h with hcond
    cases h
    refine ⟨hcond.1, ?_⟩
    rw [List.all_eq_true]
    exact fun c hc => List.mem_takeWhile_imp hc

theorem cjlistSearch_digits (l ds : Chars) (h : cjlistSearch l = some ds) :
    ds ≠ [] ∧ ds.all Char.isDigit = true := by
  induction l with
  | nil => exact absurd h (by simp [cjlistSearch])
  | cons c cs ih =>
    simp only [cjlistSearch] at h
    cases hat : cjlistMatchAt (c :: cs) with
    | none => rw [hat] at h; exact ih h
    | some m2 =>
      rw [hat] at h
      simp at h
      subst h
      exact cjlistMatchAt_digits _ _ hat

theorem cjlistSearchStr_digits (s : String) (ds : String)
    (h : cjlistSearchStr s = some ds) : isDigitString ds = true := by
  rw [cjlistSearchStr] at h
  obtain ⟨m, hm, rfl⟩ := Option.map_eq_some'.mp h
  obtain ⟨hne, hall⟩ := cjlistSearch_digits _ _ hm
  rw [isDigitString]
  rw [Bool.and_eq_true]
  constructor
  · rw [decide_eq_true_eq]
    intro hmk
    exact hne (by simpa using congrArg String.data hmk)
  · exact hall

theorem mem_insertIfAbsent (l : List String) (x y : String)
    (h : y ∈ insertIfAbsent l x) : y ∈ l ∨ y = x := by
  rw [insertIfAbsent] at h
  split_ifs at h
  · exact Or.inl h
  · rcases List.mem_append.mp h with h2 | h2
    · exact Or.inl h2
    · exact Or.inr (by simpa using h2)

theorem cjlistIdStep_digits (ids : List String) (href : String) (y : String)
    (h : y ∈ cjlistIdStep ids href) : y ∈ ids ∨ isDigitString y = true := by
  rw [cjlistIdStep] at h
  cases hdir : cjlistSearchStr href with
  | some ds =>
    rw [hdir] at h
    simp only at h
    rcases mem_insertIfAbsent _ _ _ h with h2 | rfl
    · exact Or.inl h2
    · exact Or.inr (cjlistSearchStr_digits _ _ hdir)
  | none =>
    rw [hdir] at h
    simp only at h
    cases hfb : cjlistSearchStr (UrllibParse.urlparse href).path with
    | some ds =>
      rw [hfb] at h
      rcases mem_insertIfAbsent _ _ _ h with h2 | rfl
      · exact Or.inl h2
      · exact Or.inr (cjlistSearchStr_digits _ _ hfb)
    | none =>
      rw [hfb] at h
      exact Or.inl h

theorem foldl_cjlistIdStep_digits (hrefs : List String) (acc : List String)
    (hacc : ∀ y ∈ acc, isDigitString y = true) :
    ∀ y ∈ hrefs.foldl cjlistIdStep acc, isDigitString y = true := by
  induction hrefs generalizing acc with
  | nil => exact hacc
  | cons href rest ih =>
    intro y hy
    refine ih (cjlistIdStep acc href) ?_ y hy
    intro z hz
    rcases cjlistIdStep_digits _ _ _ hz with h2 | h2
    · exact hacc z h2
    · exact h2

theorem extract_cjlist_ids_digits (doc : Node) :
    ∀ y ∈ extract_cjlist_ids_from_html doc, isDigitString y = true := by
  rw [extract_cjlist_ids_from_html]
  exact foldl_cjlistIdStep_digits _ [] (by simp)

/-- The registry invariant tracked through the crawl: every key is a
non-empty digit string and every entry records its own key as its
company_id. -/
def RegistryOk (reg : Registry) : Prop :=
  ∀ p ∈ reg, isDigitString p.1 = true ∧ p.2.company_id = p.1

theorem registerIfAbsent_ok (reg : Registry) (cid jobU listU : String)
    (hreg : RegistryOk reg) (hcid : isDigitString cid = true) :
    RegistryOk (registerIfAbsent reg cid jobU listU) := by
  rw [registerIfAbsent]
  split_ifs
  · exact hreg
  · intro p hp
    rcases List.mem_append.mp hp with h2 | h2
    · exact hreg p h2
    · simp only [List.mem_singleton] at h2
      subst h2
      exact ⟨hcid, rfl⟩

theorem registerNewIds_ok (ids : List String) (reg : Registry) (jobU listU : String)
    (hreg : RegistryOk reg) (hids : ∀ y ∈ ids, isDigitString y = true) :
    RegistryOk (registerNewIds reg ids jobU listU) := by
  rw [registerNewIds]
  induction ids generalizing reg with
  | nil => exact hreg
  | cons cid rest ih =>
    exact ih _ (registerIfAbsent_ok _ _ _ _ hreg (hids cid (by simp)))
      (fun y hy => hids y (List.mem_cons_of_mem _ hy))

theorem mergeObservation_ok (reg : Registry) (cid curl jobU listU : String)
    (hreg : RegistryOk reg) (hcid : isDigitString cid = true) :
    RegistryOk (mergeObservation reg cid curl jobU listU) := by
  rw [mergeObservation]
  cases regLookup reg cid with
  | none =>
    intro p hp
    rcases List.mem_append.mp hp with h2 | h2
    · exact hreg p h2
    · simp only [List.mem_singleton] at h2
      subst h2
      exact ⟨hcid, rfl⟩
  | some info =>
    intro p hp
    obtain ⟨q, hq, hpq⟩ := List.mem_map.mp hp
    by_cases hk : q.1 = cid
    · rw [if_pos hk] at hpq
      subst hpq
      exact ⟨by rw [hk]; exact hcid, by rw [mergeInfo]; exact (hreg q hq).2⟩
    · rw [if_neg hk] at hpq
      subst hpq
      exact hreg q hq

theorem processJobs_registry_ok (env : CrawlEnv) (maxJ : Nat) (lu : String) :
    ∀ (jobs : List String) (st : CrawlState), RegistryOk st.registry →
      RegistryOk (processJobs env maxJ lu jobs st).registry := by
  intro jobs
  induction jobs with
  | nil => intro st h; exact h
  | cons job rest ih =>
    intro st h
    rw [processJobs]
    split_ifs
    · exact h
    · exact ih st h
    · cases hf : env.fetch job with
      | none => exact ih _ h
      | some jdoc =>
        refine ih _ ?_
        have h2 : RegistryOk (registerNewIds st.registry
            (extract_cjlist_ids_from_html jdoc) job lu) :=
          registerNewIds_ok _ _ _ _ h (extract_cjlist_ids_digits jdoc)
        split
        · exact h2
        · split
          · exact h2
          · next cid hs =>
              exact mergeObservation_ok _ _ _ _ _ h2 (cjlistSearchStr_digits _ _ hs)

theorem crawlLoop_registry_ok (env : CrawlEnv) (maxJ : Nat) :
    ∀ (n : Nat) (url : Option String) (st : CrawlState), RegistryOk st.registry →
      RegistryOk (crawlLoop env maxJ n url st).registry := by
  intro n
  induction n with
  | zero =>
    intro url st h
    cases url with
    | none => exact h
    | some u => exact h
  | succ m ih =>
    intro url st h
    cases url with
    | none => exact h
    | some u =>
      rw [crawlLoop]
      split_ifs
      · exact h
      · exact h
      · split
        · exact h
        · next doc _ =>
            refine ih _ _ ?_
            rw [listingStep]
            exact processJobs_registry_ok env maxJ u _ _
              (registerNewIds_ok _ _ _ _ h (extract_cjlist_ids_digits doc))

/-- Claim C10: every identifier returned by
extract_cjlist_ids_from_html is a non-empty decimal digit string (the
captured group of CJLIST_RE), and consequently every key of the registry
built by crawl_baitoru_company_ids names a non-empty digit string that
the entry also records as its company_id, so every company_id in the
returned records is a non-empty digit string. -/
theorem claim_C10 :
    (∀ (doc : Node) (y : String), y ∈ extract_cjlist_ids_from_html doc →
      isDigitString y = true) ∧
    (∀ (env : CrawlEnv) (start : String) (maxL maxJ : Nat),
      (∀ p ∈ (crawl_baitoru_company_ids env start maxL maxJ).registry,
        isDigitString p.1 = true ∧ p.2.company_id = p.1) ∧
      (∀ r ∈ crawlRecords (crawl_baitoru_company_ids env start maxL maxJ),
        isDigitString r.company_id = true)) := by
  refine ⟨fun doc y hy => extract_cjlist_ids_digits doc y hy, ?_⟩
  intro env start maxL maxJ
  have hok : RegistryOk (crawl_baitoru_company_ids env start maxL maxJ).registry := by
    rw [crawl_baitoru_company_ids]
    exact crawlLoop_registry_ok env maxJ maxL (some start) initCrawlState (by
      intro p hp
      simp [initCrawlState] at hp)
  refine ⟨hok, ?_⟩
  intro r hr
  obtain ⟨p, hp, rfl⟩ := List.mem_map.mp hr
  obtain ⟨h1, h2⟩ := hok p hp
  rw [h2]
  exact h1

end Baitoru

namespace Baitoru

/-! ### Claim C7: crawl bounds, no re-fetching, exit conditions -/

theorem crawlLoop_none_eq (env : CrawlEnv) (maxJ n : Nat) (st : CrawlState) :
    crawlLoop env maxJ n none st = st := by
  cases n <;> rfl

theorem crawlLoop_zero_eq (env : CrawlEnv) (maxJ : Nat) (u : String) (st : CrawlState) :
    crawlLoop env maxJ 0 (some u) st = st := rfl

theorem crawlLoop_empty_eq (env : CrawlEnv) (maxJ n : Nat) (st : CrawlState) :
    crawlLoop env maxJ (n + 1) (some "") st = st := by
  rw [crawlLoop, if_pos rfl]

theorem crawlLoop_visited_eq (env : CrawlEnv) (maxJ n : Nat) (u : String)
    (st : CrawlState) (hne : u ≠ "") (hv : u ∈ st.visited_listing) :
    crawlLoop env maxJ (n + 1) (some u) st = st := by
  rw [crawlLoop, if_neg hne, if_pos hv]

theorem crawlLoop_fetch_fail_eq (env : CrawlEnv) (maxJ n : Nat) (u : String)
    (st : CrawlState) (hne : u ≠ "") (hv : u ∉ st.visited_listing)
    (hf : env.fetch u = none) :
    crawlLoop env maxJ (n + 1) (some u) st =
      { st with visited_listing := u :: st.visited_listing,
                listingFetchLog := u :: st.listingFetchLog } := by
  rw [crawlLoop, if_neg hne, if_neg hv, hf]

theorem crawlLoop_continue_eq (env : CrawlEnv) (maxJ n : Nat) (u : String)
    (st : CrawlState) (doc : Node) (hne : u ≠ "") (hv : u ∉ st.visited_listing)
    (hf : env.fetch u = some doc) :
    crawlLoop env maxJ (n + 1) (some u) st =
      crawlLoop env maxJ n (find_next_page_url doc u)
        (listingStep env maxJ u doc
          { st with visited_listing := u :: st.visited_listing,
                    listingFetchLog := u :: st.listingFetchLog }) := by
  rw [crawlLoop, if_neg hne, if_neg hv, hf]

theorem processJobs_inv (env : CrawlEnv) (maxJ : Nat) (lu : String) :
    ∀ (jobs : List String) (st : CrawlState),
      st.visited_job = st.jobFetchLog → st.jobFetchLog.Nodup →
      st.jobFetchLog.length ≤ maxJ →
      (processJobs env maxJ lu jobs st).visited_listing = st.visited_listing ∧
      (processJobs env maxJ lu jobs st).listingFetchLog = st.listingFetchLog ∧
      (processJobs env maxJ lu jobs st).visited_job =
        (processJobs env maxJ lu jobs st).jobFetchLog ∧
      (processJobs env maxJ lu jobs st).jobFetchLog.Nodup ∧
      (processJobs env maxJ lu jobs st).jobFetchLog.length ≤ maxJ := by
  intro jobs
  induction jobs with
  | nil =>
    intro st h1 h2 h3
    rw [processJobs]
    exact ⟨rfl, rfl, h1, h2, h3⟩
  | cons job rest ih =>
    intro st h1 h2 h3
    rw [processJobs]
    split_ifs with hb hv
    · exact ⟨rfl, rfl, h1, h2, h3⟩
    · exact ih st h1 h2 h3
    · have hv' : job ∉ st.jobFetchLog := h1 ▸ hv
      have hinv1 : (job :: st.visited_job) = (job :: st.jobFetchLog) := by rw [h1]
      have hinv2 : (job :: st.jobFetchLog).Nodup := List.nodup_cons.mpr ⟨hv', h2⟩
      have hlt : st.jobFetchLog.length < maxJ := by
        rw [← h1]
        omega
      have hinv3 : (job :: st.jobFetchLog).length ≤ maxJ := by
        simp only [List.length_cons]
        omega
      split
      · exact ih _ hinv1 hinv2 hinv3
      · split
        · exact ih _ hinv1 hinv2 hinv3
        · split
          · exact ih _ hinv1 hinv2 hinv3
          · exact ih _ hinv1 hinv2 hinv3

theorem listingStep_inv (env : CrawlEnv) (maxJ : Nat) (u : String) (doc : Node)
    (st1 : CrawlState) (h3 : st1.visited_job = st1.jobFetchLog)
    (h4 : st1.jobFetchLog.Nodup) (h5 : st1.jobFetchLog.length ≤ maxJ) :
    (listingStep env maxJ u doc st1).visited_listing = st1.visited_listing ∧
    (listingStep env maxJ u doc st1).listingFetchLog = st1.listingFetchLog ∧
    (listingStep env maxJ u doc st1).visited_job =
      (listingStep env maxJ u doc st1).jobFetchLog ∧
    (listingStep env maxJ u doc st1).jobFetchLog.Nodup ∧
    (listingStep env maxJ u doc st1).jobFetchLog.length ≤ maxJ := by
  rw [listingStep]
  exact processJobs_inv env maxJ u _ _ h3 h4 h5

theorem crawlLoop_inv (env : CrawlEnv) (maxJ : Nat) :
    ∀ (n : Nat) (url : Option String) (st : CrawlState),
      st.visited_listing = st.listingFetchLog → st.listingFetchLog.Nodup →
      st.visited_job = st.jobFetchLog → st.jobFetchLog.Nodup →
      st.jobFetchLog.length ≤ maxJ →
      (crawlLoop env maxJ n url st).visited_listing =
        (crawlLoop env maxJ n url st).listingFetchLog ∧
      (crawlLoop env maxJ n url st).listingFetchLog.Nodup ∧
      (crawlLoop env maxJ n url st).listingFetchLog.length ≤
        st.listingFetchLog.length + n ∧
      (crawlLoop env maxJ n url st).jobFetchLog.Nodup ∧
      (crawlLoop env maxJ n url st).jobFetchLog.length ≤ maxJ := by
  intro n
  induction n with
  | zero =>
    intro url st h1 h2 h3 h4 h5
    cases url with
    | none =>
      rw [crawlLoop_none_eq]
      exact ⟨h1, h2, by omega, h4, h5⟩
    | some u =>
      rw [crawlLoop_zero_eq]
      exact ⟨h1, h2, by omega, h4, h5⟩
  | succ m ih =>
    intro url st h1 h2 h3 h4 h5
    cases url with
    | none =>
      rw [crawlLoop_none_eq]
      exact ⟨h1, h2, by omega, h4, h5⟩
    | some u =>
      by_cases he : u = ""
      · subst he
        rw [crawlLoop_empty_eq]
        exact ⟨h1, h2, by omega, h4, h5⟩
      by_cases hv : u ∈ st.visited_listing
      · rw [crawlLoop_visited_eq env maxJ m u st he hv]
        exact ⟨h1, h2, by omega, h4, h5⟩
      have hv' : u ∉ st.listingFetchLog := h1 ▸ hv
      rw [crawlLoop, if_neg he, if_neg hv]
      split
      · -- the listing fetch failed: the crawl stops with the page marked
        refine ⟨by simp [h1], List.nodup_cons.mpr ⟨hv', h2⟩, ?_, h4, h5⟩
        simp only [List.length_cons]
        omega
      · -- the listing fetch succeeded
        next doc _ =>
          obtain ⟨hl1, hl2, hj1, hj2, hj3⟩ := listingStep_inv env maxJ u doc
            { st with visited_listing := u :: st.visited_listing,
                      listingFetchLog := u :: st.listingFetchLog } h3 h4 h5
          obtain ⟨g1, g2, g3, g4, g5⟩ := ih (find_next_page_url doc u)
            (listingStep env maxJ u doc
              { st with visited_listing := u :: st.visited_listing,
                        listingFetchLog := u :: st.listingFetchLog })
            (by
              rw [hl1, hl2]
              show u :: st.visited_listing = u :: st.listingFetchLog
              rw [h1])
            (by
              rw [hl2]
              exact List.nodup_cons.mpr ⟨hv', h2⟩)
            hj1 hj2 hj3
          refine ⟨g1, g2, ?_, g4, g5⟩
          have hle : (listingStep env maxJ u doc
              { st with visited_listing := u :: st.visited_listing,
                        listingFetchLog := u :: st.listingFetchLog }).listingFetchLog.length =
              st.listingFetchLog.length + 1 := by
            rw [hl2]
            rfl
          show (crawlLoop env maxJ m (find_next_page_url doc u)
            (listingStep env maxJ u doc
              { st with visited_listing := u :: st.visited_listing,
                        listingFetchLog := u :: st.listingFetchLog })).listingFetchLog.length ≤
            st.listingFetchLog.length + (m + 1)
          omega

/-- Claim C7: a crawl run always terminates (the loop functions are
total), fetches at most max_listing_pages listing pages, none of them
twice, and at most max_job_pages distinct job pages, none of them twice;
and the outer loop ends exactly at the four conditions of the source:
no (or an empty) next-page URL, the listing budget spent, the current
listing URL already visited, or a failed listing fetch (which still
marks the page visited before stopping) — in the one remaining case the
loop always continues to the next page. -/
theorem claim_C7 :
    (∀ (env : CrawlEnv) (start : String) (maxL maxJ : Nat),
      (crawl_baitoru_company_ids env start maxL maxJ).listingFetchLog.length ≤ maxL ∧
      (crawl_baitoru_company_ids env start maxL maxJ).listingFetchLog.Nodup ∧
      (crawl_baitoru_company_ids env start maxL maxJ).jobFetchLog.length ≤ maxJ ∧
      (crawl_baitoru_company_ids env start maxL maxJ).jobFetchLog.Nodup) ∧
    (∀ (env : CrawlEnv) (maxJ n : Nat) (st : CrawlState),
      crawlLoop env maxJ n none st = st) ∧
    (∀ (env : CrawlEnv) (maxJ : Nat) (u : String) (st : CrawlState),
      crawlLoop env maxJ 0 (some u) st = st) ∧
    (∀ (env : CrawlEnv) (maxJ n : Nat) (u : String) (st : CrawlState),
      u ≠ "" → u ∈ st.visited_listing →
      crawlLoop env maxJ (n + 1) (some u) st = st) ∧
    (∀ (env : CrawlEnv) (maxJ n : Nat) (u : String) (st : CrawlState),
      u ≠ "" → u ∉ st.visited_listing → env.fetch u = none →
      crawlLoop env maxJ (n + 1) (some u) st =
        { st with visited_listing := u :: st.visited_listing,
                  listingFetchLog := u :: st.listingFetchLog }) ∧
    (∀ (env : CrawlEnv) (maxJ n : Nat) (u : String) (st : CrawlState) (doc : Node),
      u ≠ "" → u ∉ st.visited_listing → env.fetch u = some doc →
      crawlLoop env maxJ (n + 1) (some u) st =
        crawlLoop env maxJ n (find_next_page_url doc u)
          (listingStep env maxJ u doc
            { st with visited_listing := u :: st.visited_listing,
                      listingFetchLog := u :: st.listingFetchLog })) := by
  refine ⟨?_, crawlLoop_none_eq, crawlLoop_zero_eq, crawlLoop_visited_eq,
    crawlLoop_fetch_fail_eq,
    fun env maxJ n u st doc hne hv hf => crawlLoop_continue_eq env maxJ n u st doc hne hv hf⟩
  intro env start maxL maxJ
  obtain ⟨g1, g2, g3, g4, g5⟩ := crawlLoop_inv env maxJ maxL (some start) initCrawlState
    rfl List.nodup_nil rfl List.nodup_nil (by simp [initCrawlState])
  rw [crawl_baitoru_company_ids]
  exact ⟨by simpa [initCrawlState] using g3, g2, g5, g4⟩

end Baitoru

namespace Baitoru

/-! ### Claim C5: job-link extraction filters -/

theorem jobLinkStep_mem (base : String) (links : List String) (li : Node) (url : String)
    (h : url ∈ jobLinkStep base links li) :
    url ∈ links ∨
    ∃ href, findAnchorHrefList li.childrenOf = some href ∧
      url = UrllibParse.urljoin base href ∧
      ((UrllibParse.urlparse url).netloc = "" ∨
        (UrllibParse.urlparse url).netloc = BASE_DOMAIN) ∧
      jobDetailSearch (UrllibParse.urlparse url).path.data = true := by
  rw [jobLinkStep] at h
  cases ha : findAnchorHrefList li.childrenOf with
  | none => rw [ha] at h; exact Or.inl h
  | some href =>
    rw [ha] at h
    simp only at h
    split_ifs at h with h1 h2
    · exact Or.inl h
    · rcases mem_insertIfAbsent _ _ _ h with h3 | rfl
      · exact Or.inl h3
      · right
        refine ⟨href, rfl, rfl, ?_, by simpa using h2⟩
        by_cases hn :
          (UrllibParse.urlparse (UrllibParse.urljoin base href)).netloc = ""
        · exact Or.inl hn
        · right
          by_contra hb
          exact h1 ⟨hn, hb⟩
    · exact Or.inl h

theorem foldl_jobLinkStep_mem (base : String) (lis : List Node) :
    ∀ (acc : List String) (url : String), url ∈ lis.foldl (jobLinkStep base) acc →
    url ∈ acc ∨
    ∃ li ∈ lis, ∃ href, findAnchorHrefList li.childrenOf = some href ∧
      url = UrllibParse.urljoin base href ∧
      ((UrllibParse.urlparse url).netloc = "" ∨
        (UrllibParse.urlparse url).netloc = BASE_DOMAIN) ∧
      jobDetailSearch (UrllibParse.urlparse url).path.data = true := by
  induction lis with
  | nil => exact fun acc url h => Or.inl h
  | cons li rest ih =>
    intro acc url h
    rcases ih (jobLinkStep base acc li) url h with h2 | ⟨li2, hli2, hbody⟩
    · rcases jobLinkStep_mem base acc li url h2 with h3 | hbody
      · exact Or.inl h3
      · exact Or.inr ⟨li, by simp, hbody⟩
    · exact Or.inr ⟨li2, List.mem_cons_of_mem _ hli2, hbody⟩

/-- Claim C5: every URL returned by extract_job_links_from_listing_html
comes from the first href-bearing anchor of some listing row matched by
the ul.ul01 li.li01 selector, equals that href resolved against the base
URL, has a path matching JOB_DETAIL_RE, and never carries a host other
than www.baitoru.com (its netloc is the site host or empty — a URL with
no host at all, as a protocol-relative or foreign-scheme href can
produce, is not rejected by the netloc guard but carries no foreign
host).  Failing any one of the three filters keeps a URL out of the
result, since membership forces all three. -/
theorem claim_C5 (doc : Node) (base_url url : String)
    (h : url ∈ extract_job_links_from_listing_html doc base_url) :
    ∃ li ∈ selectLi01 false doc,
      ∃ href, findAnchorHrefList li.childrenOf = some href ∧
        url = UrllibParse.urljoin base_url href ∧
        ((UrllibParse.urlparse url).netloc = "" ∨
          (UrllibParse.urlparse url).netloc = BASE_DOMAIN) ∧
        jobDetailSearch (UrllibParse.urlparse url).path.data = true := by
  rw [extract_job_links_from_listing_html] at h
  rcases foldl_jobLinkStep_mem base_url (selectLi01 false doc) [] url h with h2 | h2
  · cases h2
  · exact h2

/-- A one-row listing document for the C5 witness. -/
def sampleListingDoc : Node :=
  .elem "html" []
    [.elem "ul" [("class", "ul01")]
      [.elem "li" [("class", "li01")]
        [.elem "h3" []
          [.elem "a" [("href", "/kanto/fjob/job150291933/")] [.text "job"]]]]]

/-- Witness for C5: the sample row resolves to an on-host job URL that
passes all three filters. -/
theorem claim_C5_witness :
    ∃ li ∈ selectLi01 false sampleListingDoc,
      ∃ href, findAnchorHrefList li.childrenOf = some href ∧
        "https://www.baitoru.com/kanto/fjob/job150291933/" =
          UrllibParse.urljoin "https://www.baitoru.com/kanto/jlist/" href ∧
        ((UrllibParse.urlparse
            "https://www.baitoru.com/kanto/fjob/job150291933/").netloc = "" ∨
          (UrllibParse.urlparse
            "https://www.baitoru.com/kanto/fjob/job150291933/").netloc = BASE_DOMAIN) ∧
        jobDetailSearch (UrllibParse.urlparse
          "https://www.baitoru.com/kanto/fjob/job150291933/").path.data = true :=
  claim_C5 sampleListingDoc "https://www.baitoru.com/kanto/jlist/"
    "https://www.baitoru.com/kanto/fjob/job150291933/" (by decide)

end Baitoru
